import Mathlib

/-!
Shallow embedding of the Web NFC utility (script.js: the nfc.js module and
the utils.js codec, plus the handleWrite UI handler that guards MIME writes).

Byte views (JS `DataView`) are modelled as `List Nat` with every entry < 256
(`getUint8 i` is the i-th list element).  The platform `TextDecoder` /
`TextEncoder` are boundary collaborators, not repository code; they are
modelled from the spec (strict UTF-8, decode failing on invalid sequences)
and `decodeRecord` is parametric in the decoder so that its try/catch
structure is verified for every possible decoder behaviour.
-/

/-- `view.getUint8(i).toString(16)` for a byte value (`b < 256`): one hex
digit when `b < 16`, else two, lowercase. -/
def byteToHexDigits (b : Nat) : List Char :=
  if b < 16 then [Nat.digitChar b] else [Nat.digitChar (b / 16), Nat.digitChar (b % 16)]

/-- JS `.padStart(2, "0")`: left-pad with zeros to length 2. -/
def padStart2 (l : List Char) : List Char :=
  List.replicate (2 - l.length) '0' ++ l

/-- One zero-padded lowercase hex pair for a byte, as in
`view.getUint8(i).toString(16).padStart(2, "0")`. -/
def byteHexChars (b : Nat) : List Char :=
  padStart2 (byteToHexDigits b)

/-- JS `Array.prototype.join(":")` at the character level. -/
def joinColonChars : List (List Char) → List Char
  | [] => []
  | [p] => p
  | p :: q :: r => p ++ ':' :: joinColonChars (q :: r)

/-- `dataViewToHex` from utils.js: map each byte to a zero-padded lowercase
hex pair, join with `":"`, then `.toUpperCase()` (character-wise upper-casing
on the ASCII output alphabet). -/
def dataViewToHex (view : List Nat) : String :=
  ⟨(joinColonChars (view.map byteHexChars)).map Char.toUpper⟩

/-- An uppercase hexadecimal digit (the output alphabet of `dataViewToHex`
other than the colon separator). -/
def isUpperHexDigit (c : Char) : Bool :=
  ('0' ≤ c && c ≤ '9') || ('A' ≤ c && c ≤ 'F')

/-- Value of one hexadecimal digit (either case), `none` otherwise. -/
def hexDigitVal (c : Char) : Option Nat :=
  if '0' ≤ c && c ≤ '9' then some (c.toNat - 48)
  else if 'a' ≤ c && c ≤ 'f' then some (c.toNat - 87)
  else if 'A' ≤ c && c ≤ 'F' then some (c.toNat - 55)
  else none

/-- Parse a digit string as hexadecimal (empty or non-digit input fails). -/
def parseHexChars (l : List Char) : Option Nat :=
  match l with
  | [] => none
  | _ :: _ =>
    l.foldl (fun acc c =>
      match acc, hexDigitVal c with
      | some a, some v => some (16 * a + v)
      | _, _ => none) (some 0)

/-- Split a character list on `':'` (JS `String.prototype.split(":")`),
accumulating the current field in reverse. -/
def splitColonAux : List Char → List Char → List (List Char)
  | [], acc => [acc.reverse]
  | c :: cs, acc =>
    if c = ':' then acc.reverse :: splitColonAux cs [] else splitColonAux cs (c :: acc)

/-- Parse every field as a hexadecimal pair; fail if any field fails. -/
def parseAllPairs : List (List Char) → Option (List Nat)
  | [] => some []
  | p :: ps =>
    match parseHexChars p, parseAllPairs ps with
    | some b, some bs => some (b :: bs)
    | _, _ => none

/-- The spec's re-parse of a hex dump: split on `":"` and parse each pair as
hexadecimal; the empty string (empty byte sequence) has no pairs. -/
def reparseHex (s : String) : Option (List Nat) :=
  if s.data = [] then some [] else parseAllPairs (splitColonAux s.data [])

/-- Boolean bundle of the per-byte facts about one hex pair, checked by
evaluation over all 256 byte values. -/
def pairOk (b : Nat) : Bool :=
  let p := byteHexChars b
  let u := p.map Char.toUpper
  p.length == 2 && u.all (fun c => isUpperHexDigit c) && parseHexChars u == some b


/-- One unit of data on an NFC tag, as delivered by the platform reader.
`data` is `none` when the record carries no data view; `mediaType` and `id`
are `none` when the field is `undefined`/`null` (a present empty string is
`some ""`). -/
structure TagRecord where
  recordType : String
  mediaType : Option String
  id : Option String
  data : Option (List Nat)
deriving DecidableEq, Repr

/-- The presentation-ready view produced by `decodeRecord`. -/
structure DecodedRecord where
  recordType : String
  mediaType : Option String
  id : Option String
  payload : Option String
deriving DecidableEq, Repr

/-- JS `String.prototype.startsWith`: the second string is a leading
segment of the first. -/
def jsStartsWith (s pat : String) : Bool :=
  List.isPrefixOf pat.data s.data

/-- The text-like test of `decodeRecord`:
`record.recordType === "text" || record.recordType === "url" ||
(record.mediaType && record.mediaType.startsWith("text/"))` —
a `null`/`undefined` or empty (falsy) media type fails the third disjunct. -/
def textLike (record : TagRecord) : Bool :=
  record.recordType == "text" || record.recordType == "url" ||
    (match record.mediaType with
     | some m => !(m == "") && jsStartsWith m "text/"
     | none => false)

/-- `decodeRecord` from utils.js.  The platform `TextDecoder.decode` is the
parameter `dec` (`none` models a thrown decoding error, caught by the
`try`/`catch` and replaced by the binary-length fallback).  The hex branch
cannot throw.  `record.mediaType || null` and `record.id || null` map a
falsy (absent or empty) field to `none`.  Total by construction: it never
raises. -/
def decodeRecord (dec : List Nat → Option String) (record : TagRecord) : DecodedRecord :=
  let payload : Option String :=
    match record.data with
    | none => none
    | some d =>
      if textLike record then
        match dec d with
        | some s => some s
        | none => some ("[Binary Data: " ++ toString d.length ++ " bytes]")
      else
        some ("[Hex] " ++ dataViewToHex d)
  { recordType := record.recordType
    mediaType := match record.mediaType with
      | some m => if m = "" then none else some m
      | none => none
    id := match record.id with
      | some i => if i = "" then none else some i
      | none => none
    payload := payload }

/-- Modelled from the spec: the platform text codec's UTF-8 encoder
(`new TextEncoder().encode`), a boundary collaborator not part of this
repository.  Standard UTF-8: 1–4 bytes per code point by range. -/
def utf8EncodeChar (c : Char) : List Nat :=
  let n := c.toNat
  if n < 0x80 then [n]
  else if n < 0x800 then [0xC0 + n / 64, 0x80 + n % 64]
  else if n < 0x10000 then [0xE0 + n / 4096, 0x80 + n / 64 % 64, 0x80 + n % 64]
  else [0xF0 + n / 262144, 0x80 + n / 4096 % 64, 0x80 + n / 64 % 64, 0x80 + n % 64]

/-- UTF-8 encoding of a string as a byte list. -/
def utf8Encode (s : String) : List Nat :=
  (s.data.map utf8EncodeChar).flatten

/-- Modelled from the spec: strict UTF-8 decoding (the spec's boundary text
codec "fails with `DecodeError` on invalid byte sequences").  Fuel-based so
the kernel can evaluate it; one byte at least is consumed per step, so fuel
equal to the input length never runs out.  Rejects stray continuation
bytes, overlong forms, surrogates and code points above `0x10FFFF`. -/
def utf8DecodeAux : Nat → List Nat → Option (List Char)
  | _, [] => some []
  | 0, _ :: _ => none
  | fuel + 1, b :: rest =>
    if b < 0x80 then
      (utf8DecodeAux fuel rest).map (fun cs => Char.ofNat b :: cs)
    else if b < 0xC2 then none
    else if b < 0xE0 then
      match rest with
      | b2 :: rest2 =>
        if 0x80 ≤ b2 && b2 < 0xC0 then
          (utf8DecodeAux fuel rest2).map
            (fun cs => Char.ofNat ((b - 0xC0) * 64 + (b2 - 0x80)) :: cs)
        else none
      | [] => none
    else if b < 0xF0 then
      match rest with
      | b2 :: b3 :: rest3 =>
        if (0x80 ≤ b2 && b2 < 0xC0) && (0x80 ≤ b3 && b3 < 0xC0)
            && !(b == 0xE0 && b2 < 0xA0) && !(b == 0xED && 0xA0 ≤ b2) then
          (utf8DecodeAux fuel rest3).map
            (fun cs => Char.ofNat ((b - 0xE0) * 4096 + (b2 - 0x80) * 64 + (b3 - 0x80)) :: cs)
        else none
      | _ => none
    else if b < 0xF5 then
      match rest with
      | b2 :: b3 :: b4 :: rest4 =>
        if (0x80 ≤ b2 && b2 < 0xC0) && (0x80 ≤ b3 && b3 < 0xC0) && (0x80 ≤ b4 && b4 < 0xC0)
            && !(b == 0xF0 && b2 < 0x90) && !(b == 0xF4 && 0x90 ≤ b2) then
          (utf8DecodeAux fuel rest4).map
            (fun cs =>
              Char.ofNat ((b - 0xF0) * 262144 + (b2 - 0x80) * 4096 + (b3 - 0x80) * 64 + (b4 - 0x80)) :: cs)
        else none
      | _ => none
    else none

/-- Strict UTF-8 decode of a byte list: `some` of the decoded string on
valid input, `none` on invalid input. -/
def utf8Decode (l : List Nat) : Option String :=
  (utf8DecodeAux l.length l).map (fun cs => ⟨cs⟩)


/-- Errors of the session-manager layer.  `missingMediaType` is the spec's
`MissingMediaType` validation error; `platformError` wraps a platform
(DOMException-like) failure message from the tag writer. -/
inductive NfcError where
  | missingMediaType
  | platformError (message : String)
deriving DecidableEq, Repr

/-- The `data` field of a record being written: either the raw payload
string (text/url and other kinds) or UTF-8 encoded bytes (mime/unknown). -/
inductive WriteData where
  | str (s : String)
  | bytes (b : List Nat)
deriving DecidableEq, Repr

/-- One record of an outgoing NDEF message, as constructed by `writeNfc`
and `writeMultiDemo`. -/
structure WriteRecord where
  recordType : String
  mediaType : Option String
  data : WriteData
deriving DecidableEq, Repr

/-- An outgoing NDEF message. -/
structure WriteMessage where
  records : List WriteRecord
deriving DecidableEq, Repr

/-- Result of a write entry point: the messages handed to the platform
tag-writer (`writer.write`), in order, and the returned value. -/
structure WriteOutcome where
  platformCalls : List WriteMessage
  result : Except NfcError WriteMessage
deriving Repr

/-- `writeNfc` from nfc.js, parametric in the platform writer `w`
(`NDEFReader.write`; an `Except.error msg` models a platform rejection).
It constructs the single-record message by `recordType` — `"mime"`: UTF-8
encoded bytes plus the supplied media type (unvalidated, `none` for the JS
default `null`); `"unknown"`: UTF-8 encoded bytes, no media type; anything
else: the raw payload string — then always hands the message to the
platform writer and resolves with the constructed message. -/
def writeNfc (w : WriteMessage → Except String Unit) (recordType payload : String)
    (mimeType : Option String) : WriteOutcome :=
  let message : WriteMessage :=
    if recordType = "mime" then
      ⟨[⟨"mime", mimeType, WriteData.bytes (utf8Encode payload)⟩]⟩
    else if recordType = "unknown" then
      ⟨[⟨recordType, none, WriteData.bytes (utf8Encode payload)⟩]⟩
    else
      ⟨[⟨recordType, none, WriteData.str payload⟩]⟩
  { platformCalls := [message]
    result := match w message with
      | Except.ok _ => Except.ok message
      | Except.error m => Except.error (NfcError.platformError m) }

/-- JS `String.prototype.trim` (character-level model): drop leading and
trailing whitespace. -/
def jsTrim (s : String) : String :=
  ⟨((s.data.dropWhile Char.isWhitespace).reverse.dropWhile Char.isWhitespace).reverse⟩

/-- Observable outcome of the `handleWrite` UI handler: whether `writeNfc`
ran, which messages reached the platform writer, and the status line text
and tone set by `setStatus`. -/
structure HandleWriteOutcome where
  calledWriteNfc : Bool
  platformCalls : List WriteMessage
  status : String × String
deriving Repr

/-- `err.message || "Write failed"` for the catch branch of `handleWrite`. -/
def errorStatusText : NfcError → String
  | NfcError.missingMediaType => "Missing media type"
  | NfcError.platformError m => if m = "" then "Write failed" else m

/-- `handleWrite` from script.js: reads the record type, payload and
trimmed MIME type from the form; when the type is `"mime"` and the trimmed
MIME type is empty (falsy) it sets a warning status and returns without
calling `writeNfc`; otherwise it calls `writeNfc` and reports success or
the caught error. -/
def handleWrite (w : WriteMessage → Except String Unit)
    (typeValue payloadValue mimeValue : String) : HandleWriteOutcome :=
  let mimeType := jsTrim mimeValue
  if typeValue == "mime" && mimeType == "" then
    { calledWriteNfc := false
      platformCalls := []
      status := ("Please provide a MIME type for this record.", "warn") }
  else
    let o := writeNfc w typeValue payloadValue (some mimeType)
    match o.result with
    | Except.ok _ =>
      { calledWriteNfc := true, platformCalls := o.platformCalls
        status := ("Write succeeded ✔️", "ok") }
    | Except.error e =>
      { calledWriteNfc := true, platformCalls := o.platformCalls
        status := (errorStatusText e, "err") }

/-- The fixed three-record demonstration message of `writeMultiDemo`:
text, URL, then a `text/plain` MIME record with UTF-8 encoded bytes. -/
def writeMultiDemoMessage : WriteMessage :=
  ⟨[⟨"text", none, WriteData.str "Hello from Web NFC 👋"⟩,
    ⟨"url", none, WriteData.str "https://developer.mozilla.org/docs/Web/API/Web_NFC_API"⟩,
    ⟨"mime", some "text/plain", WriteData.bytes (utf8Encode "sample mime payload")⟩]⟩

/-- `writeMultiDemo` from nfc.js: hands the fixed message to the platform
writer and resolves with it. -/
def writeMultiDemo (w : WriteMessage → Except String Unit) : WriteOutcome :=
  { platformCalls := [writeMultiDemoMessage]
    result := match w writeMultiDemoMessage with
      | Except.ok _ => Except.ok writeMultiDemoMessage
      | Except.error m => Except.error (NfcError.platformError m) }

/-- An `AbortController`: `abort()` sets the aborted flag and is a no-op
(never a raise) on an already-aborted controller. -/
structure ScanController where
  aborted : Bool
deriving DecidableEq, Repr

/-- `controller.abort()`. -/
def abortSignal (_ : ScanController) : ScanController :=
  { aborted := true }

/-- `stopScan` from nfc.js: `if (controller) controller.abort()` — the
absent (`null`) handle is left untouched. -/
def stopScan : Option ScanController → Option ScanController
  | none => none
  | some c => some (abortSignal c)

/-- An incoming NDEF message: the platform's ordered record list. -/
structure TagMessage where
  records : List TagRecord
deriving DecidableEq, Repr

/-- One platform `reading` event: the message plus the optional serial
number and detected tag technology (`event.target?.tech`). -/
structure ReadEvent where
  message : TagMessage
  serialNumber : Option String
  tech : Option String
deriving DecidableEq, Repr

/-- What one `onReading` invocation receives from `startScan`'s `onreading`
handler: the message with every record replaced by its decoded form
(order preserved), the serial number, and the technology name. -/
structure Reading where
  records : List DecodedRecord
  serialNumber : Option String
  tech : Option String
deriving DecidableEq, Repr

/-- The `ndef.onreading` handler installed by `startScan`:
`message.records.map(decodeRecord)` then one `onReading` call with the
decoded message, `serialNumber` and `event.target?.tech`. -/
def onReadingEvent (dec : List Nat → Option String) (e : ReadEvent) : Reading :=
  { records := e.message.records.map (decodeRecord dec)
    serialNumber := e.serialNumber
    tech := e.tech }

/-- A scan session processing the platform's read events in delivery
order: `startScan` registers `onReadingEvent` as the per-event handler, so
a delivered event list produces exactly one `onReading` invocation per
event, in order. -/
def startScanReadings (dec : List Nat → Option String) (events : List ReadEvent) : List Reading :=
  events.map (onReadingEvent dec)

/-- Sample one-record event for concrete instantiations. -/
def sampleEvent1 : ReadEvent :=
  { message := ⟨[⟨"text", none, none, some [104, 105]⟩]⟩
    serialNumber := some "04:A2:5C"
    tech := some "NDEF" }

/-- Sample three-record event for concrete instantiations. -/
def sampleEvent3 : ReadEvent :=
  { message := ⟨[⟨"text", none, none, some [104, 105]⟩,
                 ⟨"url", none, none, some [104, 105]⟩,
                 ⟨"mime", some "application/json", none, some [10, 255]⟩]⟩
    serialNumber := none
    tech := none }

set_option maxRecDepth 10000 in
theorem allPairOk : (List.range 256).all pairOk = true := by decide

theorem pairOk_of_lt (b : Nat) (hb : b < 256) : pairOk b = true :=
  List.all_eq_true.mp allPairOk b (List.mem_range.mpr hb)

theorem byteHexChars_length (b : Nat) (hb : b < 256) : (byteHexChars b).length = 2 := by
  have h := pairOk_of_lt b hb
  simp only [pairOk, Bool.and_eq_true, beq_iff_eq] at h
  exact h.1.1

theorem byteHexChars_upper_hex (b : Nat) (hb : b < 256) :
    ∀ c ∈ (byteHexChars b).map Char.toUpper, isUpperHexDigit c = true := by
  have h := pairOk_of_lt b hb
  simp only [pairOk, Bool.and_eq_true, List.all_eq_true] at h
  exact h.1.2

theorem byteHexChars_parse (b : Nat) (hb : b < 256) :
    parseHexChars ((byteHexChars b).map Char.toUpper) = some b := by
  have h := pairOk_of_lt b hb
  simp only [pairOk, Bool.and_eq_true, beq_iff_eq] at h
  exact h.2

theorem upper_hex_ne_colon (c : Char) (h : isUpperHexDigit c = true) : c ≠ ':' := by
  intro hc
  subst hc
  exact absurd h (by decide)

theorem byteHexChars_ne_colon (b : Nat) (hb : b < 256) :
    ∀ c ∈ (byteHexChars b).map Char.toUpper, c ≠ ':' :=
  fun c hc => upper_hex_ne_colon c (byteHexChars_upper_hex b hb c hc)

theorem map_toUpper_joinColon (l : List (List Char)) :
    (joinColonChars l).map Char.toUpper = joinColonChars (l.map (List.map Char.toUpper)) := by
  induction l with
  | nil => rfl
  | cons p ps ih =>
    cases ps with
    | nil => rfl
    | cons q r =>
      have hcolon : Char.toUpper ':' = ':' := by decide
      simp only [joinColonChars, List.map_append, List.map_cons, hcolon, List.map_map] at ih ⊢
      rw [ih]

theorem joinColonChars_length (l : List (List Char)) (hne : l ≠ [])
    (h2 : ∀ p ∈ l, p.length = 2) :
    (joinColonChars l).length = 3 * l.length - 1 := by
  induction l with
  | nil => exact absurd rfl hne
  | cons p ps ih =>
    cases ps with
    | nil =>
      simp only [joinColonChars, List.length_cons, List.length_nil]
      rw [h2 p (by simp)]
    | cons q r =>
      have hlen := ih (by simp) (fun x hx => h2 x (List.mem_cons_of_mem p hx))
      simp only [joinColonChars, List.length_append, List.length_cons] at hlen ⊢
      rw [h2 p (by simp), hlen]
      have : (q :: r).length ≥ 1 := by simp
      omega

theorem joinColonChars_chars (l : List (List Char))
    (h : ∀ p ∈ l, ∀ c ∈ p, isUpperHexDigit c = true) :
    ∀ c ∈ joinColonChars l, isUpperHexDigit c = true ∨ c = ':' := by
  induction l with
  | nil => intro c hc; exact absurd hc (by simp [joinColonChars])
  | cons p ps ih =>
    cases ps with
    | nil =>
      intro c hc
      exact Or.inl (h p (by simp) c hc)
    | cons q r =>
      intro c hc
      simp only [joinColonChars, List.mem_append, List.mem_cons] at hc
      rcases hc with hp | hc | hrest
      · exact Or.inl (h p (by simp) c hp)
      · exact Or.inr hc
      · exact ih (fun x hx => h x (List.mem_cons_of_mem p hx)) c hrest

theorem splitColonAux_append (p : List Char) (rest acc : List Char)
    (h : ∀ c ∈ p, c ≠ ':') :
    splitColonAux (p ++ rest) acc = splitColonAux rest (p.reverse ++ acc) := by
  induction p generalizing acc with
  | nil => simp
  | cons c cs ih =>
    have hc : ¬(c = ':') := h c (by simp)
    simp only [List.cons_append, splitColonAux, if_neg hc, List.append_eq]
    rw [ih (c :: acc) (fun x hx => h x (by simp [hx]))]
    simp

theorem splitColonAux_no_colon (p acc : List Char) (h : ∀ c ∈ p, c ≠ ':') :
    splitColonAux p acc = [acc.reverse ++ p] := by
  have hx := splitColonAux_append p [] acc h
  simp only [List.append_nil] at hx
  rw [hx]
  simp [splitColonAux]

theorem splitColonAux_joinColon (l : List (List Char)) (hne : l ≠ [])
    (h : ∀ p ∈ l, ∀ c ∈ p, c ≠ ':') :
    splitColonAux (joinColonChars l) [] = l := by
  induction l with
  | nil => exact absurd rfl hne
  | cons p ps ih =>
    cases ps with
    | nil =>
      simp only [joinColonChars]
      rw [splitColonAux_no_colon p [] (h p (by simp))]
      simp
    | cons q r =>
      simp only [joinColonChars]
      rw [splitColonAux_append p (':' :: joinColonChars (q :: r)) [] (h p (by simp))]
      simp only [splitColonAux, if_pos rfl]
      rw [ih (by simp) (fun x hx => h x (List.mem_cons_of_mem p hx))]
      simp

theorem parseAllPairs_map (view : List Nat) (h : ∀ b ∈ view, b < 256) :
    parseAllPairs (view.map (fun b => (byteHexChars b).map Char.toUpper)) = some view := by
  induction view with
  | nil => rfl
  | cons b bs ih =>
    simp only [List.map_cons, parseAllPairs]
    rw [byteHexChars_parse b (h b (by simp)), ih (fun x hx => h x (by simp [hx]))]

theorem dataViewToHex_data (view : List Nat) :
    (dataViewToHex view).data
      = joinColonChars (view.map (fun b => (byteHexChars b).map Char.toUpper)) := by
  show (joinColonChars (view.map byteHexChars)).map Char.toUpper = _
  rw [map_toUpper_joinColon, List.map_map]
  rfl

/-- Claim C3: `dataViewToHex` emits `3*len-1` characters (`0` when the view
is empty), all of them uppercase hexadecimal digits or colon separators,
one zero-padded two-digit pair per byte; splitting the output on `":"` and
parsing each pair as hexadecimal reproduces the byte sequence exactly, and
`[0x0A, 0xFF]` maps to `"0A:FF"`. -/
theorem claim_c3_thm (view : List Nat) (h : ∀ b ∈ view, b < 256) :
    (dataViewToHex view).length = (if view = [] then 0 else 3 * view.length - 1) ∧
    (∀ c ∈ (dataViewToHex view).data, isUpperHexDigit c = true ∨ c = ':') ∧
    reparseHex (dataViewToHex view) = some view ∧
    dataViewToHex [10, 255] = "0A:FF" := by
  have hlen2 : ∀ p ∈ view.map (fun b => (byteHexChars b).map Char.toUpper), p.length = 2 := by
    intro p hp
    obtain ⟨b, hb, rfl⟩ := List.mem_map.mp hp
    rw [List.length_map]
    exact byteHexChars_length b (h b hb)
  have hhex : ∀ p ∈ view.map (fun b => (byteHexChars b).map Char.toUpper),
      ∀ c ∈ p, isUpperHexDigit c = true := by
    intro p hp
    obtain ⟨b, hb, rfl⟩ := List.mem_map.mp hp
    exact byteHexChars_upper_hex b (h b hb)
  refine ⟨?_, ?_, ?_, by decide⟩
  · show (dataViewToHex view).data.length = _
    rw [dataViewToHex_data]
    cases view with
    | nil => rfl
    | cons b bs =>
      rw [if_neg (by simp), joinColonChars_length _ (by simp) hlen2, List.length_map]
  · intro c hc
    rw [dataViewToHex_data] at hc
    exact joinColonChars_chars _ hhex c hc
  · rw [reparseHex, dataViewToHex_data]
    cases view with
    | nil => rfl
    | cons b bs =>
      have hjlen := joinColonChars_length
        ((b :: bs).map (fun x => (byteHexChars x).map Char.toUpper)) (by simp) hlen2
      rw [if_neg ?hne]
      case hne =>
        intro hempty
        rw [hempty] at hjlen
        simp only [List.length_nil, List.length_map, List.length_cons] at hjlen
        omega
      rw [splitColonAux_joinColon _ (by simp)
        (fun p hp c hc => upper_hex_ne_colon c (hhex p hp c hc)),
        parseAllPairs_map _ h]

/-- Witness for claim C3 at the spec's example bytes `[0x0A, 0xFF]`. -/
theorem claim_c3_witness :
    (∀ b ∈ [(10 : Nat), 255], b < 256) ∧
    ((dataViewToHex [10, 255]).length
        = (if ([(10 : Nat), 255] : List Nat) = [] then 0 else 3 * ([(10 : Nat), 255] : List Nat).length - 1) ∧
      (∀ c ∈ (dataViewToHex [10, 255]).data, isUpperHexDigit c = true ∨ c = ':') ∧
      reparseHex (dataViewToHex [10, 255]) = some [10, 255] ∧
      dataViewToHex [10, 255] = "0A:FF") :=
  ⟨by decide, claim_c3_thm [10, 255] (by decide)⟩

/-- Claim C2: `decodeRecord` never raises — it is total by construction —
and whenever the text-like policy applies and the decoder fails, the
payload is the fallback `"[Binary Data: N bytes]"` with `N` the byte length
of the record's data; moreover every record with data present gets some
payload string. -/
theorem claim_c2_thm (dec : List Nat → Option String) (record : TagRecord)
    (d : List Nat) (hd : record.data = some d) (ht : textLike record = true)
    (hf : dec d = none) :
    (decodeRecord dec record).payload
      = some ("[Binary Data: " ++ toString d.length ++ " bytes]") ∧
    (∀ r : TagRecord, r.data.isSome = true → ((decodeRecord dec r).payload).isSome = true) := by
  constructor
  · simp [decodeRecord, hd, ht, hf]
  · intro r hr
    obtain ⟨e, he⟩ := Option.isSome_iff_exists.mp hr
    cases htl : textLike r <;> cases hde : dec e <;> simp [decodeRecord, he, htl, hde]

/-- Witness for claim C2: a failing decoder on a one-byte text record
yields the binary fallback. -/
theorem claim_c2_witness :
    (decodeRecord (fun _ => none) ⟨"text", none, none, some [255]⟩).payload
      = some "[Binary Data: 1 bytes]" := by
  have h := (claim_c2_thm (fun _ => none) ⟨"text", none, none, some [255]⟩ [255]
    rfl (by decide) rfl).1
  rw [h]
  decide

/-- Claim C4: for a record with data present that is text-like (record type
`"text"` or `"url"`, or a media type beginning with `"text/"`) and valid
UTF-8 data, the decoded payload is exactly the UTF-8 decoding of the
data. -/
theorem claim_c4_thm (record : TagRecord) (d : List Nat) (s : String)
    (hd : record.data = some d)
    (ht : record.recordType = "text" ∨ record.recordType = "url" ∨
      (∃ m, record.mediaType = some m ∧ jsStartsWith m "text/" = true))
    (hs : utf8Decode d = some s) :
    (decodeRecord utf8Decode record).payload = some s := by
  have htl : textLike record = true := by
    rcases ht with h1 | h2 | ⟨m, hm, hsw⟩
    · simp [textLike, h1]
    · simp [textLike, h2]
    · have hne : ¬(m = "") := by
        intro h0
        subst h0
        exact absurd hsw (by decide)
      simp [textLike, hm, hsw, hne]
  simp [decodeRecord, hd, htl, hs]

/-- Witness for claim C4: the bytes `[0x68, 0x69]` of a text record decode
to `"hi"`. -/
theorem claim_c4_witness :
    (decodeRecord utf8Decode ⟨"text", none, none, some [104, 105]⟩).payload = some "hi" :=
  claim_c4_thm ⟨"text", none, none, some [104, 105]⟩ [104, 105] "hi"
    rfl (Or.inl rfl) (by decide)

/-- Claim C5: for a record with data present that is not text-like (record
type neither `"text"` nor `"url"`, media type not beginning with
`"text/"`), the decoded payload is the hex marker `"[Hex] "` followed by
the `dataViewToHex` encoding of the data. -/
theorem claim_c5_thm (dec : List Nat → Option String) (record : TagRecord) (d : List Nat)
    (hd : record.data = some d)
    (h1 : record.recordType ≠ "text") (h2 : record.recordType ≠ "url")
    (h3 : ∀ m, record.mediaType = some m → jsStartsWith m "text/" = false) :
    (decodeRecord dec record).payload = some ("[Hex] " ++ dataViewToHex d) := by
  have htl : textLike record = false := by
    cases hm : record.mediaType with
    | none => simp [textLike, h1, h2, hm]
    | some m => simp [textLike, h1, h2, hm, h3 m hm]
  simp [decodeRecord, hd, htl]

/-- Witness for claim C5: an `application/json` MIME record with bytes
`[0x0A, 0xFF]` is rendered as the hex dump `"[Hex] 0A:FF"`. -/
theorem claim_c5_witness :
    (decodeRecord utf8Decode ⟨"mime", some "application/json", none, some [10, 255]⟩).payload
      = some "[Hex] 0A:FF" := by
  have h := claim_c5_thm utf8Decode ⟨"mime", some "application/json", none, some [10, 255]⟩
    [10, 255] rfl (by decide) (by decide)
    (by intro m hm; injection hm with h0; subst h0; decide)
  rw [h]
  decide




/-- Claim C6 (amended): `decodeRecord` leaves the payload unset when the
record's data is absent and copies the record type unchanged; `mediaType`
and `id` pass through unchanged when present and non-empty, and an absent
or present-but-empty `mediaType`/`id` maps to the null marker (the code
applies JS `|| null`, so a present empty string also becomes null). -/
theorem claim_c6_thm (dec : List Nat → Option String) (record : TagRecord) :
    (record.data = none → (decodeRecord dec record).payload = none) ∧
    (decodeRecord dec record).recordType = record.recordType ∧
    (record.mediaType = none ∨ record.mediaType = some "" →
      (decodeRecord dec record).mediaType = none) ∧
    (∀ m, record.mediaType = some m → m ≠ "" →
      (decodeRecord dec record).mediaType = some m) ∧
    (record.id = none ∨ record.id = some "" → (decodeRecord dec record).id = none) ∧
    (∀ i, record.id = some i → i ≠ "" → (decodeRecord dec record).id = some i) := by
  refine ⟨?_, rfl, ?_, ?_, ?_, ?_⟩
  · intro hd
    simp [decodeRecord, hd]
  · rintro (hm | hm) <;> simp [decodeRecord, hm]
  · intro m hm hne
    simp [decodeRecord, hm, hne]
  · rintro (hi | hi) <;> simp [decodeRecord, hi]
  · intro i hi hne
    simp [decodeRecord, hi, hne]

/-- Counterexample to claim C6 as stated: a present-but-empty `mediaType`
is not passed through as-is — `decodeRecord` maps it to the null marker. -/
theorem claim_c6_counterexample :
    (decodeRecord utf8Decode ⟨"external", some "", none, none⟩).mediaType
      ≠ (⟨"external", some "", none, none⟩ : TagRecord).mediaType := by
  decide

/-- Witness for claim C6 (amended) on a record with absent data, a
non-empty media type and an empty id. -/
theorem claim_c6_witness :
    (decodeRecord utf8Decode ⟨"text", some "text/plain", some "", none⟩).payload = none ∧
    (decodeRecord utf8Decode ⟨"text", some "text/plain", some "", none⟩).recordType = "text" ∧
    (decodeRecord utf8Decode ⟨"text", some "text/plain", some "", none⟩).mediaType
      = some "text/plain" ∧
    (decodeRecord utf8Decode ⟨"text", some "text/plain", some "", none⟩).id = none := by
  have h := claim_c6_thm utf8Decode ⟨"text", some "text/plain", some "", none⟩
  exact ⟨h.1 rfl, h.2.1, h.2.2.2.1 "text/plain" rfl (by decide), h.2.2.2.2.1 (Or.inr rfl)⟩

/-- Claim C10: a present-but-empty `mediaType` or `id` is mapped to the
null marker by `decodeRecord`, exactly as an absent one is, so the two are
indistinguishable in the output. -/
theorem claim_c10_thm (dec : List Nat → Option String) (record : TagRecord) :
    (record.mediaType = some "" → (decodeRecord dec record).mediaType = none) ∧
    (record.id = some "" → (decodeRecord dec record).id = none) ∧
    (record.mediaType = none → (decodeRecord dec record).mediaType = none) ∧
    (record.id = none → (decodeRecord dec record).id = none) := by
  refine ⟨?_, ?_, ?_, ?_⟩ <;> intro hm <;> simp [decodeRecord, hm]

/-- Witness for claim C10 on a record whose `mediaType` and `id` are both
present and empty. -/
theorem claim_c10_witness :
    (decodeRecord utf8Decode ⟨"unknown", some "", some "", none⟩).mediaType = none ∧
    (decodeRecord utf8Decode ⟨"unknown", some "", some "", none⟩).id = none := by
  have h := claim_c10_thm utf8Decode ⟨"unknown", some "", some "", none⟩
  exact ⟨h.1 rfl, h.2.1 rfl⟩

/-- Claim C8: `stopScan` is idempotent and total — running it twice equals
running it once, the absent (never-started) handle is untouched, and an
already-aborted handle is left as-is; being a total function it never
raises. -/
theorem claim_c8_thm (h : Option ScanController) :
    stopScan (stopScan h) = stopScan h ∧
    stopScan none = none ∧
    (∀ c : ScanController, c.aborted = true → stopScan (some c) = some c) := by
  refine ⟨?_, rfl, ?_⟩
  · cases h <;> rfl
  · intro c hc
    cases c with
    | mk a => subst hc; rfl

/-- Witness for claim C8: double stop on a live handle, stop with no
handle, and stop on an already-aborted handle. -/
theorem claim_c8_witness :
    stopScan (stopScan (some ⟨false⟩)) = stopScan (some ⟨false⟩) ∧
    stopScan none = none ∧
    stopScan (some ⟨true⟩) = some ⟨true⟩ := by
  have h := claim_c8_thm (some ⟨false⟩)
  exact ⟨h.1, h.2.1, h.2.2 ⟨true⟩ rfl⟩

/-- Claim C9: a scan session invokes `onReading` exactly once per
delivered read event, in delivery order, each time with the message's
records replaced by their decoded forms in the original order together
with the event's serial number and technology name; in particular two
events carrying 1 and 3 records produce exactly two invocations with
record counts 1 then 3. -/
theorem claim_c9_thm (dec : List Nat → Option String) (events : List ReadEvent) :
    (startScanReadings dec events).length = events.length ∧
    (∀ i : Nat, (startScanReadings dec events)[i]? =
      (events[i]?).map (fun e =>
        { records := e.message.records.map (decodeRecord dec)
          serialNumber := e.serialNumber
          tech := e.tech })) ∧
    (∀ e1 e2 : ReadEvent, e1.message.records.length = 1 → e2.message.records.length = 3 →
      (startScanReadings dec [e1, e2]).map (fun r => r.records.length) = [1, 3]) := by
  refine ⟨by simp [startScanReadings], ?_, ?_⟩
  · intro i
    simp only [startScanReadings, List.getElem?_map]
    rfl
  · intro e1 e2 h1 h2
    simp [startScanReadings, onReadingEvent, h1, h2]

/-- Witness for claim C9: the sample events with 1 and 3 records yield two
`onReading` invocations with record counts 1 then 3. -/
theorem claim_c9_witness :
    (startScanReadings utf8Decode [sampleEvent1, sampleEvent3]).map
      (fun r => r.records.length) = [1, 3] :=
  (claim_c9_thm utf8Decode [sampleEvent1, sampleEvent3]).2.2 sampleEvent1 sampleEvent3 rfl rfl

/-- Claim C7: `writeMultiDemo` always writes the one fixed message of
exactly 3 records in the order text, url, mime — the mime record carrying
media type `"text/plain"` and the UTF-8 encoding of its plain-text
payload — and resolves with that constructed message. -/
theorem claim_c7_thm (w : WriteMessage → Except String Unit)
    (hw : w writeMultiDemoMessage = Except.ok ()) :
    (writeMultiDemo w).result = Except.ok writeMultiDemoMessage ∧
    (writeMultiDemo w).platformCalls = [writeMultiDemoMessage] ∧
    writeMultiDemoMessage.records.length = 3 ∧
    writeMultiDemoMessage.records.map (fun r => r.recordType) = ["text", "url", "mime"] ∧
    (writeMultiDemoMessage.records.map (fun r => r.mediaType))[2]? = some (some "text/plain") ∧
    (writeMultiDemoMessage.records.map (fun r => r.data))[2]?
      = some (WriteData.bytes (utf8Encode "sample mime payload")) := by
  refine ⟨?_, rfl, rfl, rfl, rfl, rfl⟩
  simp [writeMultiDemo, hw]

/-- Witness for claim C7 with an always-accepting platform writer. -/
theorem claim_c7_witness :
    (writeMultiDemo (fun _ => Except.ok ())).result = Except.ok writeMultiDemoMessage ∧
    writeMultiDemoMessage.records.length = 3 := by
  have h := claim_c7_thm (fun _ => Except.ok ()) rfl
  exact ⟨h.1, h.2.2.1⟩

/-- Counterexample to claim C1 as stated: `writeNfc("mime", "hello", "")`
does not fail with `MissingMediaType` — it constructs the mime record with
the empty media type, hands it to the platform writer (one platform call),
and resolves with the constructed message. -/
theorem claim_c1_counterexample :
    (writeNfc (fun _ => Except.ok ()) "mime" "hello" (some "")).result
      = Except.ok ⟨[⟨"mime", some "", WriteData.bytes (utf8Encode "hello")⟩]⟩ ∧
    (writeNfc (fun _ => Except.ok ()) "mime" "hello" (some "")).platformCalls
      = [⟨[⟨"mime", some "", WriteData.bytes (utf8Encode "hello")⟩]⟩] ∧
    (writeNfc (fun _ => Except.ok ()) "mime" "hello" (some "")).result
      ≠ Except.error NfcError.missingMediaType := by
  refine ⟨rfl, rfl, ?_⟩
  intro hcontra
  simp [writeNfc] at hcontra

/-- Claim C1 (amended): the missing-media-type guard lives in the caller
`handleWrite`, which on a `"mime"` write whose trimmed media type is empty
sets a warning status and returns without invoking `writeNfc`, so no
platform call is attempted on that path; `writeNfc` itself performs no
media-type validation — it always attempts the platform write and can
never fail with `MissingMediaType`. -/
theorem claim_c1_thm (w : WriteMessage → Except String Unit)
    (payloadValue mimeValue : String) (hm : jsTrim mimeValue = "") :
    (handleWrite w "mime" payloadValue mimeValue).calledWriteNfc = false ∧
    (handleWrite w "mime" payloadValue mimeValue).platformCalls = [] ∧
    (handleWrite w "mime" payloadValue mimeValue).status
      = ("Please provide a MIME type for this record.", "warn") ∧
    (∀ payload : String, ∀ mt : Option String,
      (writeNfc w "mime" payload mt).platformCalls ≠ [] ∧
      (writeNfc w "mime" payload mt).result ≠ Except.error NfcError.missingMediaType) := by
  refine ⟨?_, ?_, ?_, ?_⟩
  · simp [handleWrite, hm]
  · simp [handleWrite, hm]
  · simp [handleWrite, hm]
  · intro payload mt
    refine ⟨by simp [writeNfc], ?_⟩
    simp only [writeNfc]
    rcases hww : w ⟨[⟨"mime", mt, WriteData.bytes (utf8Encode payload)⟩]⟩ with u | m <;>
      simp [hww]

/-- Witness for claim C1 (amended): a mime write with a whitespace-only
media type field neither calls `writeNfc` nor reaches the platform. -/
theorem claim_c1_witness :
    (handleWrite (fun _ => Except.ok ()) "mime" "hello" " ").calledWriteNfc = false ∧
    (handleWrite (fun _ => Except.ok ()) "mime" "hello" " ").platformCalls = [] := by
  have h := claim_c1_thm (fun _ => Except.ok ()) "hello" " " (by decide)
  exact ⟨h.1, h.2.1⟩
